import Mathlib

/-!
Shallow embedding of the data-ingestion and numeric-derivation pipeline of
`script.js` (geomechanics elastic parameter calculator).

Modelling conventions:
* A JavaScript number is `JSNum`: either `NaN`, a signed infinity, or a
  finite value, with finite values carried as exact rationals (`ℚ`).
* A raw spreadsheet cell is `Cell`: absent (`undefined`), `null`, or a
  scalar carried as the JavaScript number it coerces to under `Number(·)`.
  (A string or boolean cell always coerces to some JavaScript number, so
  the `val` constructor covers those cases through their coercion image.)
* Regular-expression tests from the source are embedded as word-boundary /
  substring tests over the cleaned character list.  The cleaned form only
  contains lowercase ASCII alphanumerics and single spaces, so the JS
  word-char class `[A-Za-z0-9_]` coincides with lowercase alphanumerics.
* Fallible stages return `Except`; the not-a-number sentinel of a derived
  field is `Option.none`.
* The derivation engine (`computeParameters`) is embedded on the spec's
  `PreparedSample` domain (all four fields finite), with finite values
  exact rationals; its arithmetic then never leaves `ℚ` except where the
  source explicitly produces the NaN sentinel.
-/

/-- A JavaScript number: `NaN`, `±Infinity` (`inf true` is `+∞`), or a
finite value modelled as an exact rational. -/
inductive JSNum where
  | nan : JSNum
  | inf : Bool → JSNum
  | fin : ℚ → JSNum
deriving DecidableEq, Repr, Inhabited

/-- `Number.isNaN`. -/
def JSNum.isNaN : JSNum → Bool
  | .nan => true
  | _ => false

/-- `Number.isFinite`. -/
def JSNum.isFinite : JSNum → Bool
  | .fin _ => true
  | _ => false

/-- A raw cell value as seen by `validateAndPrepare`: a missing property
(`undefined`), `null`, or a scalar represented by its `Number(·)` coercion
image. -/
inductive Cell where
  | absent : Cell
  | null : Cell
  | val : JSNum → Cell
deriving DecidableEq, Repr

/-- ECMAScript `Number(·)` coercion on a cell: `Number(undefined) = NaN`,
`Number(null) = 0`, and a scalar yields its coercion image. -/
def jsNumberOfCell : Cell → JSNum
  | .absent => .nan
  | .null => .fin 0
  | .val x => x

/-- A raw row: association list from header label to cell value
(object property lookup; a key not present reads as `undefined`). -/
abbrev RawRow := List (String × Cell)

/-- `row[h]`: property lookup, `undefined` when the key is absent. -/
def rowGet (row : RawRow) (h : String) : Cell :=
  match row.find? (fun p => p.1 == h) with
  | some p => p.2
  | none => .absent

/-! ### Header-label normalization (`normalizeHeader` and the
`replace(/[^a-z0-9]+/g, ' ')` cleanup) -/

/-- JS `String.prototype.trim` whitespace (ASCII fragment). -/
def isJsWs (c : Char) : Bool :=
  c = ' ' || c = '\t' || c = '\n' || c = '\r' || c = '\x0b' || c = '\x0c'

/-- Trim whitespace from both ends. -/
def trimList (l : List Char) : List Char :=
  ((l.dropWhile isJsWs).reverse.dropWhile isJsWs).reverse

/-- Lowercase ASCII alphanumeric, the character class `[a-z0-9]`. -/
def isLowerAlnum (c : Char) : Bool :=
  ('a' ≤ c && c ≤ 'z') || ('0' ≤ c && c ≤ '9')

/-- `replace(/[^a-z0-9]+/g, ' ')`: each maximal run of characters outside
`[a-z0-9]` becomes a single space.  The boolean flag records whether we are
inside such a run. -/
def collapseAux : Bool → List Char → List Char
  | _, [] => []
  | b, c :: cs =>
    if isLowerAlnum c then c :: collapseAux false cs
    else if b then collapseAux true cs
    else ' ' :: collapseAux true cs

/-- Collapse runs of non-alphanumerics to single spaces. -/
def collapseRuns (l : List Char) : List Char := collapseAux false l

/-- `normalizeHeader(h).replace(/[^a-z0-9]+/g, ' ')`: trim, lowercase,
collapse non-alphanumeric runs. -/
def cleanedOf (s : String) : List Char :=
  collapseRuns ((trimList s.data).map Char.toLower)

/-! ### Regular-expression tests on cleaned labels -/

/-- JS word character `\w` restricted to the cleaned alphabet. -/
def isWordAt (s : List Char) (i : ℕ) : Bool :=
  match s.get? i with
  | some c => isLowerAlnum c
  | none => false

/-- Wordness of the character before gap `i` (out of range = non-word). -/
def prevIsWord (s : List Char) (i : ℕ) : Bool :=
  if i = 0 then false else isWordAt s (i - 1)

/-- Regex `\b`: a word boundary at gap position `i` (between characters
`i-1` and `i`). -/
def boundaryAt (s : List Char) (i : ℕ) : Bool :=
  prevIsWord s i != isWordAt s i

/-- The length-`n` slice of `s` starting at `i`. -/
def sliceAt (s : List Char) (i n : ℕ) : List Char :=
  (s.drop i).take n

/-- The literal pattern `pat` matches at position `i` with `\b` on both
sides. -/
def wbAt (s pat : List Char) (i : ℕ) : Bool :=
  (sliceAt s i pat.length == pat) && boundaryAt s i && boundaryAt s (i + pat.length)

/-- `new RegExp("\\b" + pat + "\\b").test(s)` for a literal `pat`. -/
def wbTest (s : List Char) (pat : String) : Bool :=
  (List.range (s.length + 1)).any (fun i => wbAt s pat.data i)

/-- Plain substring test (regex alternative without `\b`). -/
def subTest (s : List Char) (pat : String) : Bool :=
  (List.range (s.length + 1)).any (fun i => sliceAt s i pat.data.length == pat.data)

/-! ### `detectUnitMultiplier` -/

/-- `detectUnitMultiplier(header, hint)` from `script.js`.  A falsy header
(absent or empty) yields 1; otherwise velocity unit tests run first, then
the depth / density hint branches.  The regex `/g\/?cc|g cm3|gcm3/` is
expanded into its literal alternatives `gcc`, `g/cc`, `g cm3`, `gcm3`
(substring tests, no word boundaries). -/
def detectUnitMultiplier (header : Option String) (hint : String) : ℚ :=
  match header with
  | none => 1
  | some hs =>
    if hs = "" then 1
    else
      let s := cleanedOf hs
      if wbTest s "km" || wbTest s "km s" || wbTest s "km/s" then 1000
      else if wbTest s "m/s" || wbTest s "m s" || wbTest s "mpersec" then 1
      else if hint = "depth" then (if wbTest s "km" then 1000 else 1)
      else if hint = "density" then
        (if subTest s "gcc" || subTest s "g/cc" || subTest s "g cm3" || subTest s "gcm3"
         then 1000 else 1)
      else 1

/-! ### `detectColumns` -/

/-- The mapping from canonical field to source header label built by
`detectColumns` (possibly partial). -/
structure ColMap where
  depth : Option String := none
  density : Option String := none
  vp : Option String := none
  vs : Option String := none
deriving DecidableEq, Repr, Inhabited

/-- JS truthiness of a map entry: `!cols[k]` holds for an absent entry or
the empty string. -/
def jsFalsyOpt (o : Option String) : Bool :=
  match o with
  | none => true
  | some s => s = ""

/-- Regex `/\bdepth\b/` on the cleaned label. -/
def depthTest1 (s : List Char) : Bool := wbTest s "depth"

/-- Regex `/\b(depthm|depth m|depth)\b/` on the cleaned label. -/
def depthTest2 (s : List Char) : Bool :=
  wbTest s "depthm" || wbTest s "depth m" || wbTest s "depth"

/-- Regex `/\b(dens|density|rho|kg m)\b/` on the cleaned label. -/
def densityTest (s : List Char) : Bool :=
  wbTest s "dens" || wbTest s "density" || wbTest s "rho" || wbTest s "kg m"

/-- Regex `/\bvp\b|\bp vel\b|\bp velocity\b|\b p velocity\b|\bpwave\b|\bp-wave\b/`. -/
def vpMainTest (s : List Char) : Bool :=
  wbTest s "vp" || wbTest s "p vel" || wbTest s "p velocity" ||
    wbTest s " p velocity" || wbTest s "pwave" || wbTest s "p-wave"

/-- Regex `/^vp\b/`: anchored at the start, boundary after `vp`. -/
def vpStartTest (s : List Char) : Bool :=
  (sliceAt s 0 2 == "vp".data) && boundaryAt s 2

/-- Regex `/\bvs\b|\bs vel\b|\bs velocity\b|\bshear\b/`. -/
def vsMainTest (s : List Char) : Bool :=
  wbTest s "vs" || wbTest s "s vel" || wbTest s "s velocity" || wbTest s "shear"

/-- Regex `/^vs\b/`. -/
def vsStartTest (s : List Char) : Bool :=
  (sliceAt s 0 2 == "vs".data) && boundaryAt s 2

/-- One iteration of the `detectColumns` header loop, assignments in
source order (the `vp`/`vs` fallback lines are guarded by `!map.vp` /
`!map.vs`). -/
def detectStep (m : ColMap) (h : String) : ColMap :=
  let s := cleanedOf h
  let m1 := if depthTest1 s then { m with depth := some h } else m
  let m2 := if depthTest2 s then { m1 with depth := some h } else m1
  let m3 := if densityTest s then { m2 with density := some h } else m2
  let m4 := if vpMainTest s then { m3 with vp := some h } else m3
  let m5 := if jsFalsyOpt m4.vp && vpStartTest s then { m4 with vp := some h } else m4
  let m6 := if vsMainTest s then { m5 with vs := some h } else m5
  let m7 := if jsFalsyOpt m6.vs && vsStartTest s then { m6 with vs := some h } else m6
  m7

/-- `detectColumns(headers)` from `script.js`. -/
def detectColumns (headers : List String) : ColMap :=
  headers.foldl detectStep {}

/-! ### `validateAndPrepare` -/

/-- The four canonical fields. -/
inductive CField where
  | depth | density | vp | vs
deriving DecidableEq, Repr

/-- The key string of a canonical field (the JS `keys` array entries). -/
def keyName : CField → String
  | .depth => "depth"
  | .density => "density"
  | .vp => "vp"
  | .vs => "vs"

/-- The unit-kind hint passed to `detectUnitMultiplier` for a field. -/
def kindName : CField → String
  | .depth => "depth"
  | .density => "density"
  | .vp => "velocity"
  | .vs => "velocity"

/-- Field projection out of a `ColMap`. -/
def colOf (c : ColMap) : CField → Option String
  | .depth => c.depth
  | .density => c.density
  | .vp => c.vp
  | .vs => c.vs

/-- A sample pushed by `validateAndPrepare` (fields are whatever survived
the NaN filter, so non-NaN but possibly infinite JS numbers). -/
structure SampleJS where
  depth : JSNum
  density : JSNum
  vp : JSNum
  vs : JSNum
deriving DecidableEq, Repr, Inhabited

/-- Field projection out of a `SampleJS`. -/
def fieldOfSample (s : SampleJS) : CField → JSNum
  | .depth => s.depth
  | .density => s.density
  | .vp => s.vp
  | .vs => s.vs

/-- `Number.isFinite(x) ? x * m : x`: the unit multiplier is applied only
to finite values. -/
def applyMult (x : JSNum) (m : ℚ) : JSNum :=
  match x with
  | .fin q => .fin (q * m)
  | y => y

/-- The raw coerced value of field `f` of a row: `Number(row[cols[f]])`. -/
def rawField (cols : ColMap) (row : RawRow) (f : CField) : JSNum :=
  jsNumberOfCell (rowGet row ((colOf cols f).getD ""))

/-- The multiplier used for field `f`:
`detectUnitMultiplier(cols[f], kind)`. -/
def multOf (cols : ColMap) (f : CField) : ℚ :=
  detectUnitMultiplier (colOf cols f) (kindName f)

/-- The converted value of field `f` of a row (coerce, then multiply when
finite). -/
def convField (cols : ColMap) (row : RawRow) (f : CField) : JSNum :=
  applyMult (rawField cols row f) (multOf cols f)

/-- The per-row body of the `validateAndPrepare` loop: build the four
converted values and skip the row when any is NaN.  (The JS guard also
tests `v === null || v === undefined`, but `Number(·)` never produces
those, so only the `Number.isNaN` test is live.) -/
def prepareRow (cols : ColMap) (row : RawRow) : Option SampleJS :=
  let d := convField cols row .depth
  let rho := convField cols row .density
  let vpv := convField cols row .vp
  let vsv := convField cols row .vs
  if d.isNaN || rho.isNaN || vpv.isNaN || vsv.isNaN then none
  else some ⟨d, rho, vpv, vsv⟩

/-- The strict part of the sort comparator `(a,b) => a.depth - b.depth`:
`a - b < 0` in JS arithmetic, with a NaN comparator value treated as 0
(ECMAScript `SortCompare`). -/
def jsLtNum (a b : JSNum) : Bool :=
  match a, b with
  | .nan, _ => false
  | _, .nan => false
  | .inf true, _ => false
  | .inf false, .inf false => false
  | .inf false, _ => true
  | .fin _, .inf true => true
  | .fin _, .inf false => false
  | .fin q, .fin r => q < r

/-- Stable insertion for the depth sort: `x` is placed before the first
element not strictly below it, so equal-depth elements keep input order. -/
def insertByDepth (x : SampleJS) : List SampleJS → List SampleJS
  | [] => [x]
  | y :: ys => if jsLtNum y.depth x.depth then y :: insertByDepth x ys else x :: y :: ys

/-- `arr.sort((a,b) => a.depth - b.depth)`: Array.prototype.sort is stable,
and a stable sort is uniquely determined by the comparator's total
preorder, so we embed it as stable insertion sort. -/
def sortByDepth : List SampleJS → List SampleJS
  | [] => []
  | x :: xs => insertByDepth x (sortByDepth xs)

/-- The two fatal errors of `validateAndPrepare`. -/
inductive VErr where
  | missingColumns : List String → VErr
  | noValidRows : VErr
deriving DecidableEq, Repr

/-- The thrown `Error` messages. -/
def VErr.message : VErr → String
  | .missingColumns fs => "Missing columns: " ++ String.intercalate ", " fs
  | .noValidRows => "No valid numeric rows found."

/-- The `keys` array of `validateAndPrepare`. -/
def requiredFields : List CField := [.depth, .density, .vp, .vs]

/-- The `missing` list: keys whose map entry is falsy, in key order. -/
def missingFields (cols : ColMap) : List String :=
  (requiredFields.filter (fun f => jsFalsyOpt (colOf cols f))).map keyName

/-- `validateAndPrepare(data, cols)` from `script.js`. -/
def validateAndPrepare (data : List RawRow) (cols : ColMap) :
    Except VErr (List SampleJS) :=
  let missing := missingFields cols
  if missing = [] then
    let arr := data.filterMap (prepareRow cols)
    if arr = [] then .error .noValidRows
    else .ok (sortByDepth arr)
  else .error (.missingColumns missing)

/-! ### `computeParameters` (Derivation Engine) -/

/-- The spec's `PreparedSample`: all four fields finite, carried as exact
rationals. -/
structure PreparedSample where
  depth : ℚ
  density : ℚ
  vp : ℚ
  vs : ℚ
deriving DecidableEq, Repr, Inhabited

/-- `g = 9.81`. -/
def gConst : ℚ := 981 / 100

/-- The `1e-12` near-singularity threshold. -/
def senThreshold : ℚ := 1 / 1000000000000

/-- `G = rho * Vs^2`. -/
def shearOf (r : PreparedSample) : ℚ := r.density * r.vs ^ 2

/-- `K = rho * (Vp^2 - 4/3 * Vs^2)`. -/
def bulkOf (r : PreparedSample) : ℚ := r.density * (r.vp ^ 2 - (4 / 3) * r.vs ^ 2)

/-- `lambda = rho * (Vp^2 - 2 * Vs^2)`. -/
def lambdaOf (r : PreparedSample) : ℚ := r.density * (r.vp ^ 2 - 2 * r.vs ^ 2)

/-- Poisson's ratio with the `1e-12` denominator guard. -/
def poissonOf (r : PreparedSample) : Option ℚ :=
  let denom := 2 * (r.vp ^ 2 - r.vs ^ 2)
  if |denom| < senThreshold then none
  else some ((r.vp ^ 2 - 2 * r.vs ^ 2) / denom)

/-- `E = 2G(1+nu)`, NaN when `nu` is NaN. -/
def youngOf (r : PreparedSample) : Option ℚ :=
  match poissonOf r with
  | none => none
  | some nu => some (2 * shearOf r * (1 + nu))

/-- `AI = rho * Vp`. -/
def acousticOf (r : PreparedSample) : ℚ := r.density * r.vp

/-- `SI = rho * Vs`. -/
def shearZOf (r : PreparedSample) : ℚ := r.density * r.vs

/-- `M = rho * Vp^2`. -/
def pModulusOf (r : PreparedSample) : ℚ := r.density * r.vp ^ 2

/-- `vs !== 0 ? vp / vs : NaN`. -/
def vpVsOf (r : PreparedSample) : Option ℚ :=
  if r.vs ≠ 0 then some (r.vp / r.vs) else none

/-- `shearModulus ? lambda / shearModulus : NaN` (0 is falsy). -/
def lambdaMuOf (r : PreparedSample) : Option ℚ :=
  if shearOf r = 0 then none else some (lambdaOf r / shearOf r)

/-- `nu = (3K - 2G) / (2(3K + G))` with the `1e-12` guard. -/
def pfmOf (r : PreparedSample) : Option ℚ :=
  let denom := 2 * (3 * bulkOf r + shearOf r)
  if |denom| < senThreshold then none
  else some ((3 * bulkOf r - 2 * shearOf r) / denom)

/-- The trapezoid term of layer `j` (between samples `j` and `j+1`):
`0.5*(rho[j+1]+rho[j])*(depth[j+1]-depth[j])`. -/
def trapArea (rows : List PreparedSample) (j : ℕ) : ℚ :=
  match rows.get? j, rows.get? (j + 1) with
  | some a, some b => (b.density + a.density) / 2 * (b.depth - a.depth)
  | _, _ => 0

/-- The running accumulator of the vertical-stress loop after `i` layers. -/
def trapAcc (rows : List PreparedSample) : ℕ → ℚ
  | 0 => 0
  | i + 1 => trapAcc rows i + trapArea rows i

/-- `sigma_v[i] = acc * g` (with `sigma_v[0] = 0`). -/
def sigmaAt (rows : List PreparedSample) (i : ℕ) : ℚ :=
  trapAcc rows i * gConst

/-- `deltaZPrev[i]`: 0 at the first sample, else the impedance step from
the previous sample. -/
def deltaAt (rows : List PreparedSample) (i : ℕ) : ℚ :=
  if i = 0 then 0
  else
    match rows.get? (i - 1), rows.get? i with
    | some a, some b => acousticOf b - acousticOf a
    | _, _ => 0

/-- `impedanceGrad[i]`: forward difference at `i = 0` (NaN when sample 1
does not exist, mirroring the JS `undefined - depth = NaN` at `n = 1`),
backward difference at the last index, centered difference inside; NaN
when the depth span is 0. -/
def gradAt (rows : List PreparedSample) (i : ℕ) : Option ℚ :=
  if i = 0 then
    match rows.get? 0, rows.get? 1 with
    | some a, some b =>
      let dz := b.depth - a.depth
      if dz = 0 then none else some ((acousticOf b - acousticOf a) / dz)
    | _, _ => none
  else if i = rows.length - 1 then
    match rows.get? (i - 1), rows.get? i with
    | some a, some b =>
      let dz := b.depth - a.depth
      if dz = 0 then none else some ((acousticOf b - acousticOf a) / dz)
    | _, _ => none
  else
    match rows.get? (i - 1), rows.get? (i + 1) with
    | some a, some b =>
      let dz := b.depth - a.depth
      if dz = 0 then none else some ((acousticOf b - acousticOf a) / dz)
    | _, _ => none

/-- The `Evals` list: Young's moduli of the samples with a non-NaN
Poisson's ratio (the JS recomputation from `shearModulus` is the same
formula as `young`). -/
def youngList (rows : List PreparedSample) : List ℚ :=
  rows.filterMap youngOf

/-- `Math.min(...)` over a list, NaN (none) when empty. -/
def listMin : List ℚ → Option ℚ
  | [] => none
  | x :: xs => some (xs.foldl min x)

/-- `Math.max(...)` over a list, NaN (none) when empty. -/
def listMax : List ℚ → Option ℚ
  | [] => none
  | x :: xs => some (xs.foldl max x)

/-- `brittlenessE[i]`: min–max normalized Young's modulus; NaN when the
sample's own `E` is NaN, when `Evals` is empty, or when `E_max = E_min`. -/
def brittAt (rows : List PreparedSample) (r : PreparedSample) : Option ℚ :=
  match youngOf r, listMin (youngList rows), listMax (youngList rows) with
  | some e, some mn, some mx => if mx = mn then none else some ((e - mn) / (mx - mn))
  | _, _, _ => none

/-- One output row of `computeParameters`, in the source's field order. -/
structure DerivedSample where
  depth : ℚ
  density : ℚ
  vp : ℚ
  vs : ℚ
  vertical_stress_pa : ℚ
  shear_modulus_pa : ℚ
  bulk_modulus_pa : ℚ
  lame_lambda_pa : ℚ
  youngs_modulus_pa : Option ℚ
  poisson_ratio : Option ℚ
  acoustic_impedance : ℚ
  shear_impedance : ℚ
  p_modulus_pa : ℚ
  vp_vs_ratio : Option ℚ
  impedance_gradient_per_m : Option ℚ
  delta_impedance_prev : ℚ
  lambda_over_mu : Option ℚ
  poisson_from_moduli : Option ℚ
  brittleness_e : Option ℚ
deriving DecidableEq, Repr, Inhabited

/-- The output row at index `i` for input sample `r = rows[i]`. -/
def derivedAt (rows : List PreparedSample) (i : ℕ) (r : PreparedSample) :
    DerivedSample :=
  { depth := r.depth
    density := r.density
    vp := r.vp
    vs := r.vs
    vertical_stress_pa := sigmaAt rows i
    shear_modulus_pa := shearOf r
    bulk_modulus_pa := bulkOf r
    lame_lambda_pa := lambdaOf r
    youngs_modulus_pa := youngOf r
    poisson_ratio := poissonOf r
    acoustic_impedance := acousticOf r
    shear_impedance := shearZOf r
    p_modulus_pa := pModulusOf r
    vp_vs_ratio := vpVsOf r
    impedance_gradient_per_m := gradAt rows i
    delta_impedance_prev := deltaAt rows i
    lambda_over_mu := lambdaMuOf r
    poisson_from_moduli := pfmOf r
    brittleness_e := brittAt rows r }

/-- `computeParameters(rows)` from `script.js`. -/
def computeParameters (rows : List PreparedSample) : List DerivedSample :=
  rows.enum.map (fun p => derivedAt rows p.1 p.2)

/-! ### Access lemmas for `computeParameters` -/

/-- The derived list is index-aligned with the input list. -/
lemma computeParameters_get? (rows : List PreparedSample) (i : ℕ) :
    (computeParameters rows).get? i = (rows.get? i).map (fun r => derivedAt rows i r) := by
  rw [computeParameters, List.get?_map, List.get?_enum]
  cases rows.get? i <;> rfl

/-- In-range `getD` access to the derived list. -/
lemma computeParameters_getD (rows : List PreparedSample) (i : ℕ) (h : i < rows.length) :
    (computeParameters rows).getD i default = derivedAt rows i (rows.getD i default) := by
  have h1 : rows.get? i = some (rows.get ⟨i, h⟩) := List.get?_eq_get h
  rw [List.getD_eq_getD_get?, computeParameters_get?, h1, List.getD_eq_getD_get?, h1]
  rfl

/-! ### Vertical stress: the loop accumulator is the trapezoid sum -/

lemma trapAcc_eq_sum (rows : List PreparedSample) (i : ℕ) :
    trapAcc rows i = ∑ j in Finset.range i, trapArea rows j := by
  induction i with
  | zero => simp [trapAcc]
  | succ n ih => rw [Finset.sum_range_succ, trapAcc, ih]

lemma trapArea_eq_getD (rows : List PreparedSample) (j : ℕ) (h : j + 1 < rows.length) :
    trapArea rows j =
      ((rows.getD (j + 1) default).density + (rows.getD j default).density) / 2 *
        ((rows.getD (j + 1) default).depth - (rows.getD j default).depth) := by
  have h0 : j < rows.length := Nat.lt_of_succ_lt h
  have e1 : rows.get? j = some (rows.get ⟨j, h0⟩) := List.get?_eq_get h0
  have e2 : rows.get? (j + 1) = some (rows.get ⟨j + 1, h⟩) := List.get?_eq_get h
  rw [trapArea, e1, e2, List.getD_eq_getD_get?, List.getD_eq_getD_get?, e1, e2]
  rfl

/-- Demo input of the spec's concrete scenario (§8.8). -/
def demoRows : List PreparedSample := [⟨0, 2500, 3000, 1500⟩, ⟨10, 2600, 3200, 1600⟩]

/-- C1: on the two-sample demo input, `p_modulus` of row 0 is
`2500·3000² = 2.25e10`, `vertical_stress` of row 0 is 0 and of row 1 is
`0.5·(2500+2600)·10·9.81 = 250155`; in general, for every depth-ascending
input, `vertical_stress[i]` is `g` times the cumulative trapezoidal
integral of density over depth up to sample `i`, and the first sample's
stress is exactly 0 regardless of its depth value. -/
theorem vertical_stress_trapezoid :
    (((computeParameters demoRows).getD 0 default).p_modulus_pa = 22500000000 ∧
      ((computeParameters demoRows).getD 0 default).vertical_stress_pa = 0 ∧
      ((computeParameters demoRows).getD 1 default).vertical_stress_pa = 250155) ∧
    (∀ rows : List PreparedSample,
      List.Chain' (fun a b => a.depth ≤ b.depth) rows →
      (∀ i, i < rows.length →
        ((computeParameters rows).getD i default).vertical_stress_pa =
          gConst * ∑ j in Finset.range i,
            ((rows.getD (j + 1) default).density + (rows.getD j default).density) / 2 *
              ((rows.getD (j + 1) default).depth - (rows.getD j default).depth)) ∧
      (rows ≠ [] →
        ((computeParameters rows).getD 0 default).vertical_stress_pa = 0)) := by
  refine ⟨⟨?_, ?_, ?_⟩, ?_⟩
  · rw [computeParameters_getD demoRows 0 (by decide)]
    show pModulusOf (demoRows.getD 0 default) = _
    norm_num [demoRows, pModulusOf]
  · rw [computeParameters_getD demoRows 0 (by decide)]
    show sigmaAt demoRows 0 = 0
    norm_num [sigmaAt, trapAcc]
  · rw [computeParameters_getD demoRows 1 (by decide)]
    show sigmaAt demoRows 1 = 250155
    norm_num [sigmaAt, trapAcc, trapArea, demoRows, gConst, List.get?]
  intro rows _
  constructor
  · intro i hi
    rw [computeParameters_getD rows i hi]
    show sigmaAt rows i = _
    rw [sigmaAt, trapAcc_eq_sum, mul_comm]
    congr 1
    apply Finset.sum_congr rfl
    intro j hj
    exact trapArea_eq_getD rows j (by have := Finset.mem_range.mp hj; omega)
  · intro h0
    have hl : 0 < rows.length := List.length_pos.mpr h0
    rw [computeParameters_getD rows 0 hl]
    show sigmaAt rows 0 = 0
    rw [sigmaAt, trapAcc]
    ring

/-- Witness for `vertical_stress_trapezoid` at the demo input. -/
theorem vertical_stress_trapezoid_witness :
    ((computeParameters demoRows).getD 1 default).vertical_stress_pa =
      gConst * ∑ j in Finset.range 1,
        ((demoRows.getD (j + 1) default).density + (demoRows.getD j default).density) / 2 *
          ((demoRows.getD (j + 1) default).depth - (demoRows.getD j default).depth) :=
  (vertical_stress_trapezoid.2 demoRows
    (by norm_num [demoRows, List.chain'_cons, List.chain'_singleton])).1 1 (by decide)

/-! ### C8: single-sample behavior and the impedance gradient -/

/-- A single-sample input. -/
def oneRow : List PreparedSample := [⟨5, 2000, 3000, 1500⟩]

/-- C8: for a single-sample input, `vertical_stress = 0`,
`delta_impedance_prev = 0` and `impedance_gradient` is the sentinel; in
general the gradient is a one-sided difference of acoustic impedance at
the two boundary samples and a centered difference at interior samples,
with the sentinel whenever the relevant depth span is zero. -/
theorem single_sample_and_gradient :
    (∀ rows : List PreparedSample, rows.length = 1 →
      ((computeParameters rows).getD 0 default).vertical_stress_pa = 0 ∧
      ((computeParameters rows).getD 0 default).delta_impedance_prev = 0 ∧
      ((computeParameters rows).getD 0 default).impedance_gradient_per_m = none) ∧
    (∀ rows : List PreparedSample, ∀ i, i < rows.length →
      (∀ a b, i = 0 → rows.get? 0 = some a → rows.get? 1 = some b →
        ((computeParameters rows).getD i default).impedance_gradient_per_m =
          (if b.depth - a.depth = 0 then none
           else some ((acousticOf b - acousticOf a) / (b.depth - a.depth)))) ∧
      (∀ a b, 0 < i → i = rows.length - 1 →
        rows.get? (i - 1) = some a → rows.get? i = some b →
        ((computeParameters rows).getD i default).impedance_gradient_per_m =
          (if b.depth - a.depth = 0 then none
           else some ((acousticOf b - acousticOf a) / (b.depth - a.depth)))) ∧
      (∀ a b, 0 < i → i < rows.length - 1 →
        rows.get? (i - 1) = some a → rows.get? (i + 1) = some b →
        ((computeParameters rows).getD i default).impedance_gradient_per_m =
          (if b.depth - a.depth = 0 then none
           else some ((acousticOf b - acousticOf a) / (b.depth - a.depth))))) := by
  constructor
  · intro rows h1
    have h0 : 0 < rows.length := by omega
    rw [computeParameters_getD rows 0 h0]
    refine ⟨?_, ?_, ?_⟩
    · show sigmaAt rows 0 = 0
      simp [sigmaAt, trapAcc]
    · show deltaAt rows 0 = 0
      simp [deltaAt]
    · show gradAt rows 0 = none
      have hnone : rows.get? 1 = none := List.get?_eq_none.mpr (by omega)
      unfold gradAt
      rw [if_pos rfl, hnone]
      cases h' : rows.get? 0 <;> rfl
  · intro rows i hi
    refine ⟨?_, ?_, ?_⟩
    · intro a b h0 ha hb
      subst h0
      rw [computeParameters_getD rows 0 hi]
      show gradAt rows 0 = _
      unfold gradAt
      rw [if_pos rfl, ha, hb]
    · intro a b hpos hlast ha hb
      have h0 : ¬ (i = 0) := by omega
      rw [computeParameters_getD rows i hi]
      show gradAt rows i = _
      unfold gradAt
      rw [if_neg h0, if_pos hlast, ha, hb]
    · intro a b hpos hmid ha hb
      have h0 : ¬ (i = 0) := by omega
      have h1 : ¬ (i = rows.length - 1) := by omega
      rw [computeParameters_getD rows i hi]
      show gradAt rows i = _
      unfold gradAt
      rw [if_neg h0, if_neg h1, ha, hb]

/-- Witness for `single_sample_and_gradient`: the single-sample facts and
the forward difference on the demo input. -/
theorem single_sample_and_gradient_witness :
    (((computeParameters oneRow).getD 0 default).vertical_stress_pa = 0 ∧
      ((computeParameters oneRow).getD 0 default).delta_impedance_prev = 0 ∧
      ((computeParameters oneRow).getD 0 default).impedance_gradient_per_m = none) ∧
    ((computeParameters demoRows).getD 0 default).impedance_gradient_per_m =
      (if ((10 : ℚ) - 0) = 0 then none
       else some ((acousticOf ⟨10, 2600, 3200, 1600⟩ - acousticOf ⟨0, 2500, 3000, 1500⟩) /
         ((10 : ℚ) - 0))) :=
  ⟨single_sample_and_gradient.1 oneRow rfl,
   (single_sample_and_gradient.2 demoRows 0 (by decide)).1
     ⟨0, 2500, 3000, 1500⟩ ⟨10, 2600, 3200, 1600⟩ rfl rfl rfl⟩

/-! ### C6: samples with `vp = vs` -/

/-- C6 (amended): a sample with `vp = vs` gets the sentinel for
`poisson_ratio`, `youngs_modulus`, and also for `poisson_from_moduli`
(its denominator `2(3K+G) = 6·rho·(vp²−vs²)` vanishes) and
`brittleness_e` (the sample's own `E` is the sentinel).  The fields
`vertical_stress`, `shear_modulus`, `bulk_modulus`, `lame_lambda`,
`acoustic_impedance`, `shear_impedance`, `p_modulus` and
`delta_impedance_prev` are rational-valued by construction. -/
theorem vp_eq_vs_sentinels :
    ∀ rows : List PreparedSample, ∀ i, i < rows.length →
      (rows.getD i default).vp = (rows.getD i default).vs →
      ((computeParameters rows).getD i default).poisson_ratio = none ∧
      ((computeParameters rows).getD i default).youngs_modulus_pa = none ∧
      ((computeParameters rows).getD i default).poisson_from_moduli = none ∧
      ((computeParameters rows).getD i default).brittleness_e = none := by
  intro rows i hi hvv
  rw [computeParameters_getD rows i hi]
  have hp : poissonOf (rows.getD i default) = none := by
    simp only [poissonOf]
    rw [hvv]
    norm_num [senThreshold]
  have hy : youngOf (rows.getD i default) = none := by
    unfold youngOf
    rw [hp]
  have hpfm : pfmOf (rows.getD i default) = none := by
    simp only [pfmOf]
    have hd : 3 * bulkOf (rows.getD i default) + shearOf (rows.getD i default) = 0 := by
      unfold bulkOf shearOf
      rw [hvv]
      ring
    rw [hd]
    norm_num [senThreshold]
  have hbr : brittAt rows (rows.getD i default) = none := by
    unfold brittAt
    rw [hy]
  exact ⟨hp, hy, hpfm, hbr⟩

/-- The two-sample input whose first sample has `vp = vs`. -/
def rows6 : List PreparedSample := [⟨0, 2500, 1500, 1500⟩, ⟨10, 2600, 3200, 1600⟩]

/-- Counterexample to C6 as stated: on `rows6`, sample 0 has `vp = vs`
and its `poisson_from_moduli` — a derived field other than
`poisson_ratio` and `youngs_modulus` — is also the sentinel, so not every
other derived field remains a real number. -/
theorem vp_eq_vs_other_field_cex :
    (rows6.getD 0 default).vp = (rows6.getD 0 default).vs ∧
    ((computeParameters rows6).getD 0 default).poisson_from_moduli = none := by
  constructor
  · norm_num [rows6]
  · rw [computeParameters_getD rows6 0 (by decide)]
    show pfmOf (rows6.getD 0 default) = none
    norm_num [pfmOf, bulkOf, shearOf, rows6, senThreshold]

/-- Witness for `vp_eq_vs_sentinels` at `rows6`. -/
theorem vp_eq_vs_sentinels_witness :
    ((computeParameters rows6).getD 0 default).poisson_ratio = none ∧
    ((computeParameters rows6).getD 0 default).youngs_modulus_pa = none := by
  have h := vp_eq_vs_sentinels rows6 0 (by decide) (by norm_num [rows6])
  exact ⟨h.1, h.2.1⟩

/-! ### C7: brittleness min–max normalization -/

/-- C7: with at least two distinct finite Young's moduli (`mn ≠ mx` where
`mn`/`mx` are the min/max of the finite-`E` list), every sample with a
finite `E` gets `brittleness_e = (E − E_min)/(E_max − E_min)`, hence
exactly 0 at the minimum and exactly 1 at the maximum; the sentinel is
produced when the sample's own `E` is the sentinel, when the finite-`E`
list is empty, or when `E_max = E_min`. -/
theorem brittleness_minmax :
    (∀ rows : List PreparedSample, ∀ mn mx : ℚ,
      listMin (youngList rows) = some mn → listMax (youngList rows) = some mx →
      mn ≠ mx → ∀ i, i < rows.length →
      ∀ e, youngOf (rows.getD i default) = some e →
        ((computeParameters rows).getD i default).brittleness_e =
          some ((e - mn) / (mx - mn)) ∧
        (e = mn → ((computeParameters rows).getD i default).brittleness_e = some 0) ∧
        (e = mx → ((computeParameters rows).getD i default).brittleness_e = some 1)) ∧
    (∀ rows : List PreparedSample, ∀ i, i < rows.length →
      youngOf (rows.getD i default) = none →
      ((computeParameters rows).getD i default).brittleness_e = none) ∧
    (∀ rows : List PreparedSample, ∀ i, i < rows.length →
      youngList rows = [] →
      ((computeParameters rows).getD i default).brittleness_e = none) ∧
    (∀ rows : List PreparedSample, ∀ mn : ℚ, ∀ i, i < rows.length →
      listMin (youngList rows) = some mn → listMax (youngList rows) = some mn →
      ((computeParameters rows).getD i default).brittleness_e = none) := by
  refine ⟨?_, ?_, ?_, ?_⟩
  · intro rows mn mx hmin hmax hne i hi e hye
    rw [computeParameters_getD rows i hi]
    have hb : brittAt rows (rows.getD i default) = some ((e - mn) / (mx - mn)) := by
      unfold brittAt
      rw [hye, hmin, hmax]
      show (if mx = mn then (none : Option ℚ) else some ((e - mn) / (mx - mn))) = _
      rw [if_neg (fun h => hne h.symm)]
    refine ⟨hb, ?_, ?_⟩
    · intro he
      subst he
      show brittAt rows (rows.getD i default) = some 0
      rw [hb]
      norm_num
    · intro he
      subst he
      show brittAt rows (rows.getD i default) = some 1
      rw [hb, div_self (sub_ne_zero.mpr (Ne.symm hne))]
  · intro rows i hi hy
    rw [computeParameters_getD rows i hi]
    show brittAt rows (rows.getD i default) = none
    unfold brittAt
    rw [hy]
  · intro rows i hi hempty
    rw [computeParameters_getD rows i hi]
    show brittAt rows (rows.getD i default) = none
    unfold brittAt
    rw [hempty]
    cases hy : youngOf (rows.getD i default) <;> rfl
  · intro rows mn i hi hmin hmax
    rw [computeParameters_getD rows i hi]
    show brittAt rows (rows.getD i default) = none
    unfold brittAt
    rw [hmin, hmax]
    cases hy : youngOf (rows.getD i default)
    · rfl
    · show (if mn = mn then (none : Option ℚ) else _) = none
      rw [if_pos rfl]

/-- The two finite Young's moduli of the demo input. -/
def eLow : ℚ := 15000000000

/-- The larger Young's modulus of the demo input. -/
def eHigh : ℚ := 53248000000 / 3

/-- Witness for `brittleness_minmax` at the demo input: the minimum gets
exactly 0 and the maximum exactly 1. -/
theorem brittleness_minmax_witness :
    ((computeParameters demoRows).getD 0 default).brittleness_e = some 0 ∧
    ((computeParameters demoRows).getD 1 default).brittleness_e = some 1 := by
  have hp0 : poissonOf ⟨0, 2500, 3000, 1500⟩ = some (1 / 3) := by
    unfold poissonOf
    norm_num [senThreshold]
  have hp1 : poissonOf ⟨10, 2600, 3200, 1600⟩ = some (1 / 3) := by
    unfold poissonOf
    norm_num [senThreshold]
  have hyA : youngOf ⟨0, 2500, 3000, 1500⟩ = some eLow := by
    unfold youngOf
    rw [hp0]
    show some (2 * shearOf ⟨0, 2500, 3000, 1500⟩ * (1 + 1 / 3)) = some eLow
    norm_num [shearOf, eLow]
  have hyB : youngOf ⟨10, 2600, 3200, 1600⟩ = some eHigh := by
    unfold youngOf
    rw [hp1]
    show some (2 * shearOf ⟨10, 2600, 3200, 1600⟩ * (1 + 1 / 3)) = some eHigh
    norm_num [shearOf, eHigh]
  have hy0 : youngOf (demoRows.getD 0 default) = some eLow := hyA
  have hy1 : youngOf (demoRows.getD 1 default) = some eHigh := hyB
  have hylist : youngList demoRows = [eLow, eHigh] := by
    rw [youngList]
    show List.filterMap youngOf [⟨0, 2500, 3000, 1500⟩, ⟨10, 2600, 3200, 1600⟩] = _
    rw [List.filterMap_cons, List.filterMap_cons, List.filterMap_nil]
    rw [hyA, hyB]
  have hmin : listMin (youngList demoRows) = some eLow := by
    rw [hylist]
    show some (List.foldl min eLow [eHigh]) = some eLow
    norm_num [List.foldl, min_def, eLow, eHigh]
  have hmax : listMax (youngList demoRows) = some eHigh := by
    rw [hylist]
    show some (List.foldl max eLow [eHigh]) = some eHigh
    norm_num [List.foldl, max_def, eLow, eHigh]
  have hne : eLow ≠ eHigh := by norm_num [eLow, eHigh]
  exact ⟨(brittleness_minmax.1 demoRows eLow eHigh hmin hmax hne 0 (by decide) eLow hy0).2.1 rfl,
         (brittleness_minmax.1 demoRows eLow eHigh hmin hmax hne 1 (by decide) eHigh hy1).2.2 rfl⟩

/-! ### Sorting lemmas: the depth sort is ordered and stable -/

lemma jsLtNum_irrefl (a : JSNum) : jsLtNum a a = false := by
  cases a with
  | nan => rfl
  | inf b => cases b <;> rfl
  | fin q => simp [jsLtNum]

lemma jsLtNum_asymm (a b : JSNum) (h : jsLtNum a b = true) : jsLtNum b a = false := by
  cases a with
  | nan => simp [jsLtNum] at h
  | inf b1 =>
    cases b with
    | nan => cases b1 <;> simp [jsLtNum] at h
    | inf b2 => cases b1 <;> cases b2 <;> simp_all [jsLtNum]
    | fin r => cases b1 <;> simp_all [jsLtNum]
  | fin q =>
    cases b with
    | nan => simp [jsLtNum] at h
    | inf b2 => cases b2 <;> simp_all [jsLtNum]
    | fin r =>
      simp only [jsLtNum, decide_eq_true_eq] at h
      simp only [jsLtNum, decide_eq_false_iff_not]
      exact lt_asymm h

lemma chain'_insertByDepth (x : SampleJS) (l : List SampleJS)
    (h : List.Chain' (fun a b => jsLtNum b.depth a.depth = false) l) :
    List.Chain' (fun a b => jsLtNum b.depth a.depth = false) (insertByDepth x l) := by
  induction l with
  | nil => simp [insertByDepth]
  | cons y ys ih =>
    by_cases hlt : jsLtNum y.depth x.depth = true
    · rw [insertByDepth, if_pos hlt]
      have hins := ih h.tail
      refine List.chain'_cons'.mpr ⟨?_, hins⟩
      intro z hz
      cases ys with
      | nil =>
        simp [insertByDepth] at hz
        subst hz
        exact jsLtNum_asymm _ _ hlt
      | cons w ws =>
        by_cases hw : jsLtNum w.depth x.depth = true
        · rw [insertByDepth, if_pos hw] at hz
          simp at hz
          subst hz
          exact (List.chain'_cons.mp h).1
        · rw [insertByDepth, if_neg hw] at hz
          simp at hz
          subst hz
          exact jsLtNum_asymm _ _ hlt
    · rw [insertByDepth, if_neg hlt]
      exact List.Chain'.cons (Bool.eq_false_iff.mpr hlt) h

lemma chain'_sortByDepth (l : List SampleJS) :
    List.Chain' (fun a b => jsLtNum b.depth a.depth = false) (sortByDepth l) := by
  induction l with
  | nil => simp [sortByDepth]
  | cons x xs ih => exact chain'_insertByDepth x _ ih

lemma filter_insertByDepth (x : SampleJS) (l : List SampleJS) (d : JSNum) :
    (insertByDepth x l).filter (fun s => s.depth == d) =
      (if x.depth == d then x :: l.filter (fun s => s.depth == d)
       else l.filter (fun s => s.depth == d)) := by
  induction l with
  | nil =>
    by_cases hx : (x.depth == d) = true <;> simp [insertByDepth, List.filter, hx]
  | cons y ys ih =>
    by_cases hlt : jsLtNum y.depth x.depth = true
    · rw [insertByDepth, if_pos hlt]
      by_cases hx : (x.depth == d) = true
      · have hy : (y.depth == d) = false := by
          cases hyy : (y.depth == d) with
          | false => rfl
          | true =>
            exfalso
            have h1 : y.depth = d := beq_iff_eq.mp hyy
            have h2 : x.depth = d := beq_iff_eq.mp hx
            rw [h1, h2.symm, jsLtNum_irrefl] at hlt
            cases hlt
        simp [List.filter_cons, hy, hx, ih]
      · simp [List.filter_cons, hx, ih]
    · rw [insertByDepth, if_neg hlt]
      by_cases hx : (x.depth == d) = true <;> simp [List.filter_cons, hx]

lemma filter_sortByDepth (l : List SampleJS) (d : JSNum) :
    (sortByDepth l).filter (fun s => s.depth == d) = l.filter (fun s => s.depth == d) := by
  induction l with
  | nil => rfl
  | cons x xs ih =>
    rw [sortByDepth, filter_insertByDepth]
    by_cases hx : (x.depth == d) = true <;> simp [List.filter_cons, hx, ih]

lemma mem_insertByDepth {x s : SampleJS} {l : List SampleJS} :
    s ∈ insertByDepth x l ↔ s = x ∨ s ∈ l := by
  induction l with
  | nil => simp [insertByDepth]
  | cons y ys ih =>
    by_cases hlt : jsLtNum y.depth x.depth = true
    · rw [insertByDepth, if_pos hlt]
      simp only [List.mem_cons, ih]
      tauto
    · rw [insertByDepth, if_neg hlt]
      simp [List.mem_cons]

lemma mem_sortByDepth {s : SampleJS} {l : List SampleJS} : s ∈ sortByDepth l ↔ s ∈ l := by
  induction l with
  | nil => exact Iff.rfl
  | cons x xs ih =>
    rw [sortByDepth, mem_insertByDepth]
    simp [ih]

/-! ### Validator lemmas -/

/-- Success of `validateAndPrepare` means the mapping was complete and the
result is the sorted survivor list. -/
lemma validateAndPrepare_ok {data : List RawRow} {cols : ColMap} {l : List SampleJS}
    (h : validateAndPrepare data cols = .ok l) :
    missingFields cols = [] ∧ l = sortByDepth (data.filterMap (prepareRow cols)) := by
  simp only [validateAndPrepare] at h
  by_cases hm : missingFields cols = []
  · rw [if_pos hm] at h
    by_cases ha : data.filterMap (prepareRow cols) = []
    · rw [if_pos ha] at h
      cases h
    · rw [if_neg ha] at h
      cases h
      exact ⟨hm, rfl⟩
  · rw [if_neg hm] at h
    cases h

/-- A row is skipped exactly when one of the four converted values is NaN. -/
lemma prepareRow_eq_none_iff (cols : ColMap) (row : RawRow) :
    prepareRow cols row = none ↔
      ((convField cols row .depth).isNaN || (convField cols row .density).isNaN ||
        (convField cols row .vp).isNaN || (convField cols row .vs).isNaN) = true := by
  simp only [prepareRow]
  by_cases h : ((convField cols row .depth).isNaN || (convField cols row .density).isNaN ||
      (convField cols row .vp).isNaN || (convField cols row .vs).isNaN) = true
  · rw [if_pos h]
    simp [h]
  · rw [if_neg h]
    simp [h]

/-- A surviving sample has all four fields non-NaN. -/
lemma prepareRow_some_fields {cols : ColMap} {row : RawRow} {s : SampleJS}
    (h : prepareRow cols row = some s) :
    s.depth.isNaN = false ∧ s.density.isNaN = false ∧
      s.vp.isNaN = false ∧ s.vs.isNaN = false := by
  simp only [prepareRow] at h
  by_cases hc : ((convField cols row .depth).isNaN || (convField cols row .density).isNaN ||
      (convField cols row .vp).isNaN || (convField cols row .vs).isNaN) = true
  · rw [if_pos hc] at h
    cases h
  · rw [if_neg hc] at h
    cases h
    simp only [Bool.or_eq_true, not_or, Bool.not_eq_true] at hc
    exact ⟨hc.1.1.1, hc.1.1.2, hc.1.2, hc.2⟩

/-! ### Concrete validator inputs shared by the examples below -/

/-- A complete column mapping with unit-free headers. -/
def colsA : ColMap := ⟨some "d", some "rho", some "vpv", some "vsv"⟩

/-- A mapping with no density column. -/
def colsNoDensity : ColMap := ⟨some "d", none, some "vpv", some "vsv"⟩

/-- A row whose depth cell is `null` and whose density cell coerces to NaN. -/
def rowNaN : RawRow :=
  [("d", Cell.null), ("rho", .val .nan), ("vpv", .val (.fin 3000)), ("vsv", .val (.fin 1500))]

/-- A row whose vp cell is `+Infinity` (e.g. the string `"1e999"` under
`Number(·)` coercion). -/
def rowInf : RawRow :=
  [("d", .val (.fin 0)), ("rho", .val (.fin 2500)), ("vpv", .val (.inf true)),
    ("vsv", .val (.fin 1500))]

/-- A row whose depth cell is `null` and whose other cells are finite. -/
def rowNull : RawRow :=
  [("d", Cell.null), ("rho", .val (.fin 2500)), ("vpv", .val (.fin 3000)),
    ("vsv", .val (.fin 1500))]

/-- All four multipliers of `colsA` are 1 (its headers carry no unit). -/
lemma multOf_colsA (f : CField) : multOf colsA f = 1 := by
  cases f <;> rfl

lemma applyMult_one (x : JSNum) : applyMult x 1 = x := by
  cases x with
  | nan => rfl
  | inf b => rfl
  | fin q => simp [applyMult]

/-- Under `colsA` the converted value is the raw coerced value. -/
lemma convField_colsA (row : RawRow) (f : CField) :
    convField colsA row f = rawField colsA row f := by
  rw [convField, multOf_colsA, applyMult_one]

/-! ### C2: the validator's failure modes -/

/-- C2: `validateAndPrepare` fails in exactly two ways: a `MissingColumns`
error carrying every absent canonical field (determined by the mapping
alone, so before any row is read) exactly when the mapping is incomplete;
otherwise a `NoValidRows` error exactly when every row is discarded; in
every other case it returns a prepared sequence.  The derivation engine is
a total function producing one derived row per input row. -/
theorem validateAndPrepare_failure_modes :
    ∀ (data : List RawRow) (cols : ColMap),
      (validateAndPrepare data cols = .error (.missingColumns (missingFields cols)) ↔
        missingFields cols ≠ []) ∧
      (validateAndPrepare data cols = .error .noValidRows ↔
        (missingFields cols = [] ∧ data.filterMap (prepareRow cols) = [])) ∧
      ((∃ l, validateAndPrepare data cols = .ok l) ↔
        (missingFields cols = [] ∧ data.filterMap (prepareRow cols) ≠ [])) ∧
      (∀ e, validateAndPrepare data cols = .error e →
        e = .missingColumns (missingFields cols) ∨ e = .noValidRows) ∧
      (∀ rows : List PreparedSample, (computeParameters rows).length = rows.length) := by
  intro data cols
  have hlen : ∀ rows : List PreparedSample, (computeParameters rows).length = rows.length := by
    intro rows
    simp [computeParameters]
  by_cases hm : missingFields cols = []
  · by_cases ha : data.filterMap (prepareRow cols) = []
    · have hv : validateAndPrepare data cols = .error .noValidRows := by
        simp only [validateAndPrepare]
        rw [if_pos hm, if_pos ha]
      refine ⟨?_, ?_, ?_, ?_, hlen⟩
      · rw [hv]
        constructor
        · intro he
          simp at he
        · intro hne
          exact absurd hm hne
      · rw [hv]
        simp [hm, ha]
      · rw [hv]
        simp [ha]
      · intro e he
        rw [hv] at he
        injection he with h
        exact Or.inr h.symm
    · have hv : validateAndPrepare data cols =
          .ok (sortByDepth (data.filterMap (prepareRow cols))) := by
        simp only [validateAndPrepare]
        rw [if_pos hm, if_neg ha]
      refine ⟨?_, ?_, ?_, ?_, hlen⟩
      · rw [hv]
        constructor
        · intro he
          simp at he
        · intro hne
          exact absurd hm hne
      · rw [hv]
        simp [ha]
      · rw [hv]
        simp [hm, ha]
      · intro e he
        rw [hv] at he
        cases he
  · have hv : validateAndPrepare data cols = .error (.missingColumns (missingFields cols)) := by
      simp only [validateAndPrepare]
      rw [if_neg hm]
    refine ⟨?_, ?_, ?_, ?_, hlen⟩
    · rw [hv]
      simp [hm]
    · rw [hv]
      simp [hm]
    · rw [hv]
      simp [hm]
    · intro e he
      rw [hv] at he
      injection he with h
      exact Or.inl h.symm

/-- Witness for `validateAndPrepare_failure_modes`: a missing density
column yields the `MissingColumns` error naming it, and an all-invalid
row set yields `NoValidRows`. -/
theorem validateAndPrepare_failure_modes_witness :
    validateAndPrepare [] colsNoDensity =
      .error (.missingColumns (missingFields colsNoDensity)) ∧
    validateAndPrepare [rowNaN] colsA = .error .noValidRows :=
  ⟨(validateAndPrepare_failure_modes [] colsNoDensity).1.mpr (by decide),
   (validateAndPrepare_failure_modes [rowNaN] colsA).2.1.mpr ⟨by decide, by decide⟩⟩

/-! ### C3: row discarding -/

/-- C3 (amended): a row is silently discarded exactly when one of the four
converted values is NaN, and every surviving sample has all four fields
non-NaN.  (Non-finite but non-NaN values — the infinities — survive, so
survivors need not be finite.) -/
theorem row_discard_iff_nan :
    (∀ cols row, prepareRow cols row = none ↔
      ((convField cols row .depth).isNaN || (convField cols row .density).isNaN ||
        (convField cols row .vp).isNaN || (convField cols row .vs).isNaN) = true) ∧
    (∀ data cols l, validateAndPrepare data cols = .ok l →
      ∀ s, s ∈ l → s.depth.isNaN = false ∧ s.density.isNaN = false ∧
        s.vp.isNaN = false ∧ s.vs.isNaN = false) := by
  constructor
  · exact prepareRow_eq_none_iff
  · intro data cols l h s hs
    obtain ⟨-, rfl⟩ := validateAndPrepare_ok h
    rw [mem_sortByDepth] at hs
    obtain ⟨row, _, hsome⟩ := List.mem_filterMap.mp hs
    exact prepareRow_some_fields hsome

/-- Counterexample to C3 as stated: a row whose vp value is `+Infinity`
(not a finite real number) is NOT discarded — it survives into the
prepared sequence with a non-finite vp field. -/
theorem nonfinite_row_retained_cex :
    validateAndPrepare [rowInf] colsA =
      .ok [⟨.fin 0, .fin 2500, .inf true, .fin 1500⟩] ∧
    (JSNum.inf true).isFinite = false := by
  constructor
  · have hrow : prepareRow colsA rowInf = some ⟨.fin 0, .fin 2500, .inf true, .fin 1500⟩ := by
      simp only [prepareRow, convField_colsA]
      decide
    simp only [validateAndPrepare]
    rw [if_pos (by decide : missingFields colsA = [])]
    rw [List.filterMap_cons, hrow, List.filterMap_nil]
    rfl
  · rfl

/-- Witness for `row_discard_iff_nan`: the NaN row is discarded, and the
surviving sample of `rowInf` has a non-NaN depth. -/
theorem row_discard_iff_nan_witness :
    prepareRow colsA rowNaN = none ∧
    (⟨JSNum.fin 0, .fin 2500, .inf true, .fin 1500⟩ : SampleJS).depth.isNaN = false := by
  constructor
  · exact (row_discard_iff_nan.1 colsA rowNaN).mpr (by decide)
  · have hrow : prepareRow colsA rowInf = some ⟨.fin 0, .fin 2500, .inf true, .fin 1500⟩ := by
      simp only [prepareRow, convField_colsA]
      decide
    have hok : validateAndPrepare [rowInf] colsA =
        .ok [⟨.fin 0, .fin 2500, .inf true, .fin 1500⟩] := by
      simp only [validateAndPrepare]
      rw [if_pos (by decide : missingFields colsA = [])]
      rw [List.filterMap_cons, hrow, List.filterMap_nil]
      rfl
    exact (row_discard_iff_nan.2 [rowInf] colsA _ hok _ (by simp)).1

/-! ### C5: the prepared sequence is stably sorted by depth -/

/-- C5: whenever `validateAndPrepare` succeeds, the returned sequence is
non-decreasing in depth under the sort comparator (adjacent pairs never
strictly out of order), and for every depth value the subsequence at that
depth equals the survivors' subsequence in input order — i.e. the sort is
stable. -/
theorem prepared_sorted_stable :
    ∀ (data : List RawRow) (cols : ColMap) (l : List SampleJS),
      validateAndPrepare data cols = .ok l →
      List.Chain' (fun a b => jsLtNum b.depth a.depth = false) l ∧
      ∀ d : JSNum, l.filter (fun s => s.depth == d) =
        (data.filterMap (prepareRow cols)).filter (fun s => s.depth == d) := by
  intro data cols l h
  obtain ⟨-, rfl⟩ := validateAndPrepare_ok h
  exact ⟨chain'_sortByDepth _, fun d => filter_sortByDepth _ d⟩

/-- Three rows, out of depth order, with two equal depths. -/
def data5 : List RawRow :=
  [[("d", .val (.fin 10)), ("rho", .val (.fin 2600)), ("vpv", .val (.fin 3200)),
      ("vsv", .val (.fin 1600))],
   [("d", .val (.fin 0)), ("rho", .val (.fin 2500)), ("vpv", .val (.fin 3000)),
      ("vsv", .val (.fin 1500))],
   [("d", .val (.fin 10)), ("rho", .val (.fin 2700)), ("vpv", .val (.fin 3300)),
      ("vsv", .val (.fin 1700))]]

/-- The stable depth-sorted order of `data5`'s samples. -/
def sorted5 : List SampleJS :=
  [⟨.fin 0, .fin 2500, .fin 3000, .fin 1500⟩,
   ⟨.fin 10, .fin 2600, .fin 3200, .fin 1600⟩,
   ⟨.fin 10, .fin 2700, .fin 3300, .fin 1700⟩]

lemma validateAndPrepare_data5 : validateAndPrepare data5 colsA = .ok sorted5 := by
  have h1 : prepareRow colsA (data5.get ⟨0, by decide⟩) =
      some ⟨.fin 10, .fin 2600, .fin 3200, .fin 1600⟩ := by
    simp only [prepareRow, convField_colsA]
    decide
  have h2 : prepareRow colsA (data5.get ⟨1, by decide⟩) =
      some ⟨.fin 0, .fin 2500, .fin 3000, .fin 1500⟩ := by
    simp only [prepareRow, convField_colsA]
    decide
  have h3 : prepareRow colsA (data5.get ⟨2, by decide⟩) =
      some ⟨.fin 10, .fin 2700, .fin 3300, .fin 1700⟩ := by
    simp only [prepareRow, convField_colsA]
    decide
  have harr : data5.filterMap (prepareRow colsA) =
      [⟨.fin 10, .fin 2600, .fin 3200, .fin 1600⟩,
       ⟨.fin 0, .fin 2500, .fin 3000, .fin 1500⟩,
       ⟨.fin 10, .fin 2700, .fin 3300, .fin 1700⟩] := by
    show List.filterMap (prepareRow colsA)
        (data5.get ⟨0, by decide⟩ :: data5.get ⟨1, by decide⟩ :: data5.get ⟨2, by decide⟩ :: []) = _
    rw [List.filterMap_cons, h1, List.filterMap_cons, h2, List.filterMap_cons, h3,
      List.filterMap_nil]
  simp only [validateAndPrepare]
  rw [if_pos (by decide : missingFields colsA = []), harr]
  rw [if_neg (by decide : ¬([⟨JSNum.fin 10, JSNum.fin 2600, JSNum.fin 3200, JSNum.fin 1600⟩,
    ⟨JSNum.fin 0, JSNum.fin 2500, JSNum.fin 3000, JSNum.fin 1500⟩,
    ⟨JSNum.fin 10, JSNum.fin 2700, JSNum.fin 3300, JSNum.fin 1700⟩] : List SampleJS) = [])]
  show Except.ok (sortByDepth _) = _
  have hsort : sortByDepth
      [⟨.fin 10, .fin 2600, .fin 3200, .fin 1600⟩,
       ⟨.fin 0, .fin 2500, .fin 3000, .fin 1500⟩,
       ⟨.fin 10, .fin 2700, .fin 3300, .fin 1700⟩] = sorted5 := by decide
  rw [hsort]

/-- Witness for `prepared_sorted_stable` at `data5`: the output is
depth-ordered and the two equal-depth rows keep their input order. -/
theorem prepared_sorted_stable_witness :
    List.Chain' (fun a b => jsLtNum b.depth a.depth = false) sorted5 ∧
    sorted5.filter (fun s => s.depth == JSNum.fin 10) =
      (data5.filterMap (prepareRow colsA)).filter (fun s => s.depth == JSNum.fin 10) :=
  ⟨(prepared_sorted_stable data5 colsA sorted5 validateAndPrepare_data5).1,
   (prepared_sorted_stable data5 colsA sorted5 validateAndPrepare_data5).2 (.fin 10)⟩

/-! ### C10: null cells coerce to zero -/

/-- C10 (amended): a `null` cell under a mapped header coerces via
`Number(null) = 0` and never itself causes the row to be discarded: if
the other converted values are non-NaN, the row is kept and the null
field's converted value is `0 · multiplier = 0`; any kept row's sample
appears in the validator's output. -/
theorem null_cell_coerces_zero :
    (∀ cols row f,
      rowGet row ((colOf cols f).getD "") = Cell.null →
      ((convField cols row .depth).isNaN || (convField cols row .density).isNaN ||
        (convField cols row .vp).isNaN || (convField cols row .vs).isNaN) = false →
      prepareRow cols row = some ⟨convField cols row .depth, convField cols row .density,
        convField cols row .vp, convField cols row .vs⟩ ∧
      fieldOfSample ⟨convField cols row .depth, convField cols row .density,
        convField cols row .vp, convField cols row .vs⟩ f = .fin 0) ∧
    (∀ data cols l row s, validateAndPrepare data cols = .ok l → row ∈ data →
      prepareRow cols row = some s → s ∈ l) := by
  constructor
  · intro cols row f hnull hok
    constructor
    · simp only [prepareRow, hok]
      rfl
    · have hconv : convField cols row f = .fin 0 := by
        have hraw : rawField cols row f = .fin 0 := by
          rw [rawField, hnull]
          rfl
        rw [convField, hraw]
        show JSNum.fin (0 * multOf cols f) = .fin 0
        rw [zero_mul]
      cases f with
      | depth => exact hconv
      | density => exact hconv
      | vp => exact hconv
      | vs => exact hconv
  · intro data cols l row s h hrow hsome
    obtain ⟨-, rfl⟩ := validateAndPrepare_ok h
    rw [mem_sortByDepth]
    exact List.mem_filterMap.mpr ⟨row, hrow, hsome⟩

/-- Counterexample to C10 as stated: `rowNaN`'s depth cell is `null`, yet
the row is NOT retained — its density cell coerces to NaN, so the whole
input fails with `NoValidRows`. -/
theorem null_cell_discard_cex :
    rowGet rowNaN ((colOf colsA .depth).getD "") = Cell.null ∧
    validateAndPrepare [rowNaN] colsA = Except.error VErr.noValidRows := by
  constructor
  · decide
  · rfl

/-- Witness for `null_cell_coerces_zero` at `rowNull`. -/
theorem null_cell_coerces_zero_witness :
    prepareRow colsA rowNull = some ⟨convField colsA rowNull .depth,
      convField colsA rowNull .density, convField colsA rowNull .vp,
      convField colsA rowNull .vs⟩ ∧
    fieldOfSample ⟨convField colsA rowNull .depth, convField colsA rowNull .density,
      convField colsA rowNull .vp, convField colsA rowNull .vs⟩ CField.depth = JSNum.fin 0 :=
  null_cell_coerces_zero.1 colsA rowNull .depth (by decide) (by decide)

/-! ### C4: unit multiplier evaluations -/

/-- C4 / bug evidence: the density label `"g/cc"` is cleaned to `"g cc"`
before the regex `/g\/?cc|g cm3|gcm3/` runs, so it matches none of the
alternatives and the multiplier is 1 — contradicting the claim (and the
source's own comment) that g/cc converts by 1000.  The neighbouring
spellings `"g cm3"` (and the claim's other behaviors, e.g. `"Vp_Km/s"`)
work as documented. -/
theorem detectUnitMultiplier_gcc_value :
    detectUnitMultiplier (some "g/cc") "density" = 1 ∧
    detectUnitMultiplier (some "g cm3") "density" = 1000 ∧
    detectUnitMultiplier (some "gcm3") "density" = 1000 ∧
    detectUnitMultiplier (some "Vp_Km/s") "velocity" = 1000 ∧
    detectUnitMultiplier none "density" = 1 := by
  refine ⟨by decide, by decide, by decide, by decide, by decide⟩

/-! ### C9: `detectColumns` is total and last-match-wins -/

/-- The last header (in input order) whose cleaned form satisfies `p`. -/
def lastMatch (p : List Char → Bool) (hs : List String) : Option String :=
  hs.reverse.find? (fun h => p (cleanedOf h))

lemma find?_append_my {α : Type} (p : α → Bool) (l1 l2 : List α) :
    (l1 ++ l2).find? p =
      match l1.find? p with
      | some x => some x
      | none => l2.find? p := by
  rw [List.find?_append]
  cases l1.find? p <;> rfl

lemma lastMatch_cons (p : List Char → Bool) (h : String) (t : List String) :
    lastMatch p (h :: t) =
      match lastMatch p t with
      | some x => some x
      | none => if p (cleanedOf h) then some h else none := by
  unfold lastMatch
  rw [List.reverse_cons, find?_append_my]
  cases ht : t.reverse.find? (fun x => p (cleanedOf x)) with
  | some x => rfl
  | none =>
    show List.find? _ [h] = _
    rw [List.find?_cons]
    by_cases hp : p (cleanedOf h) = true <;> simp [hp]

/-- The anchored fallback `/^vp\b/` implies the main test `/\bvp\b/…`:
position 0 is always a word boundary before a word character. -/
lemma vpStart_imp_vpMain (s : List Char) (h : vpStartTest s = true) : vpMainTest s = true := by
  rw [vpStartTest, Bool.and_eq_true] at h
  obtain ⟨hslice, hbound⟩ := h
  have htake : s.take 2 = ['v', 'p'] := by
    have := beq_iff_eq.mp hslice
    simpa [sliceAt] using this
  obtain ⟨t, hs⟩ : ∃ t, s = 'v' :: 'p' :: t := by
    cases s with
    | nil => simp at htake
    | cons a s1 =>
      cases s1 with
      | nil => simp at htake
      | cons b s2 =>
        simp [List.take] at htake
        exact ⟨s2, by rw [htake.1, htake.2]⟩
    -- the slice equality forces the first two characters
  subst hs
  have hwb : wbTest ('v' :: 'p' :: t) "vp" = true := by
    rw [wbTest, List.any_eq_true]
    refine ⟨0, List.mem_range.mpr (Nat.succ_pos _), ?_⟩
    rw [wbAt, Bool.and_eq_true, Bool.and_eq_true]
    exact ⟨⟨hslice, rfl⟩, hbound⟩
  simp [vpMainTest, hwb]

/-- The anchored fallback `/^vs\b/` implies the main test `/\bvs\b/…`. -/
lemma vsStart_imp_vsMain (s : List Char) (h : vsStartTest s = true) : vsMainTest s = true := by
  rw [vsStartTest, Bool.and_eq_true] at h
  obtain ⟨hslice, hbound⟩ := h
  have htake : s.take 2 = ['v', 's'] := by
    have := beq_iff_eq.mp hslice
    simpa [sliceAt] using this
  obtain ⟨t, hs⟩ : ∃ t, s = 'v' :: 's' :: t := by
    cases s with
    | nil => simp at htake
    | cons a s1 =>
      cases s1 with
      | nil => simp at htake
      | cons b s2 =>
        simp [List.take] at htake
        exact ⟨s2, by rw [htake.1, htake.2]⟩
  subst hs
  have hwb : wbTest ('v' :: 's' :: t) "vs" = true := by
    rw [wbTest, List.any_eq_true]
    refine ⟨0, List.mem_range.mpr (Nat.succ_pos _), ?_⟩
    rw [wbAt, Bool.and_eq_true, Bool.and_eq_true]
    exact ⟨⟨hslice, rfl⟩, hbound⟩
  simp [vsMainTest, hwb]

lemma detectStep_depth (m : ColMap) (h : String) :
    (detectStep m h).depth =
      if depthTest1 (cleanedOf h) || depthTest2 (cleanedOf h) then some h else m.depth := by
  simp only [detectStep, apply_ite ColMap.depth, ite_self]
  by_cases h1 : depthTest1 (cleanedOf h) = true <;>
    by_cases h2 : depthTest2 (cleanedOf h) = true <;> simp [h1, h2]

lemma detectStep_density (m : ColMap) (h : String) :
    (detectStep m h).density =
      if densityTest (cleanedOf h) then some h else m.density := by
  simp only [detectStep, apply_ite ColMap.density, ite_self]

lemma detectStep_vp (m : ColMap) (h : String) :
    (detectStep m h).vp =
      if vpMainTest (cleanedOf h) then some h else m.vp := by
  simp only [detectStep, apply_ite ColMap.vp, ite_self]
  by_cases hm : vpMainTest (cleanedOf h) = true
  · simp [hm]
  · by_cases hs : vpStartTest (cleanedOf h) = true
    · exact absurd (vpStart_imp_vpMain _ hs) (by simpa using hm)
    · simp [hm, hs]

lemma detectStep_vs (m : ColMap) (h : String) :
    (detectStep m h).vs =
      if vsMainTest (cleanedOf h) then some h else m.vs := by
  simp only [detectStep, apply_ite ColMap.vs, ite_self]
  by_cases hm : vsMainTest (cleanedOf h) = true
  · simp [hm]
  · by_cases hs : vsStartTest (cleanedOf h) = true
    · exact absurd (vsStart_imp_vsMain _ hs) (by simpa using hm)
    · simp [hm, hs]

lemma foldl_detect_proj (p : List Char → Bool) (proj : ColMap → Option String)
    (hstep : ∀ m h, proj (detectStep m h) = if p (cleanedOf h) then some h else proj m)
    (hs : List String) : ∀ m : ColMap,
      proj (hs.foldl detectStep m) =
        match lastMatch p hs with
        | some x => some x
        | none => proj m := by
  induction hs with
  | nil => intro m; rfl
  | cons h t ih =>
    intro m
    rw [List.foldl_cons, ih (detectStep m h), hstep, lastMatch_cons]
    by_cases hp : p (cleanedOf h) = true
    · cases hmt : lastMatch p t <;> simp [hp, hmt]
    · cases hmt : lastMatch p t <;> simp [hp, hmt]

/-- C9: `detectColumns` is a total function (it always returns a mapping),
and each canonical field of the returned mapping is the LAST header in
input order matching that field's patterns (main pattern together with
the `^vp`/`^vs` fallback, which the main pattern subsumes): a later
matching header overwrites an earlier assignment. -/
theorem detectColumns_last_match :
    ∀ headers : List String,
      (detectColumns headers).depth =
        lastMatch (fun s => depthTest1 s || depthTest2 s) headers ∧
      (detectColumns headers).density = lastMatch densityTest headers ∧
      (detectColumns headers).vp =
        lastMatch (fun s => vpMainTest s || vpStartTest s) headers ∧
      (detectColumns headers).vs =
        lastMatch (fun s => vsMainTest s || vsStartTest s) headers := by
  intro headers
  have hvpu : (fun s => vpMainTest s || vpStartTest s) = vpMainTest := by
    funext s
    by_cases hs : vpStartTest s = true
    · simp [hs, vpStart_imp_vpMain s hs]
    · simp [hs]
  have hvsu : (fun s => vsMainTest s || vsStartTest s) = vsMainTest := by
    funext s
    by_cases hs : vsStartTest s = true
    · simp [hs, vsStart_imp_vsMain s hs]
    · simp [hs]
  refine ⟨?_, ?_, ?_, ?_⟩
  · have hf := foldl_detect_proj (fun s => depthTest1 s || depthTest2 s) ColMap.depth
      detectStep_depth headers {}
    rw [detectColumns]
    rw [show ColMap.depth (headers.foldl detectStep {}) =
      (headers.foldl detectStep {}).depth from rfl] at hf
    rw [hf]
    cases hm : lastMatch (fun s => depthTest1 s || depthTest2 s) headers <;> simp
  · have hf := foldl_detect_proj densityTest ColMap.density detectStep_density headers {}
    rw [detectColumns, hf]
    cases hm : lastMatch densityTest headers <;> simp
  · have hf := foldl_detect_proj vpMainTest ColMap.vp detectStep_vp headers {}
    rw [detectColumns, hvpu, hf]
    cases hm : lastMatch vpMainTest headers <;> simp
  · have hf := foldl_detect_proj vsMainTest ColMap.vs detectStep_vs headers {}
    rw [detectColumns, hvsu, hf]
    cases hm : lastMatch vsMainTest headers <;> simp
